import Mathlib

/-!
Verification of the price-forecasting engine (`src/forecaster.py`).

The engine is embedded shallowly over `ℚ`:

* pandas/numpy float arithmetic is idealised as exact rational arithmetic;
* a missing value (`NaN`) in a pandas column is `Option.none`;
* a float division whose result is non-finite (`inf`/`nan`, e.g. division by
  zero) is modelled by `fdiv` returning `none`, and a record that would
  contain such a value is modelled as `none`;
* `round(x, k)` (Python round-half-to-even) is `roundTo k`;
* the pseudo-random daily returns drawn by the Monte-Carlo simulation
  (`np.random.normal`) are passed in explicitly as a list of paths.

All theorems about behaviour on price data carry the `PriceSeries`
positivity invariant (§3 of the specification: `price > 0`) where the
float semantics (division by zero, `0/0`) would otherwise diverge from
the exact rational model.
-/

attribute [local semireducible] Rat.add Rat.mul Rat.sub Rat.inv Rat.ofScientific

namespace Forecast

/-- Arithmetic mean of a list, `np.mean` / `Series.mean`.  Division by zero
on the empty list is `ℚ`-junk (`0`); every use is guarded as in the source. -/
def mean (l : List ℚ) : ℚ := l.sum / l.length

/-- Population variance (`np.std(..., ddof=0)` squared). -/
def popVar (l : List ℚ) : ℚ :=
  (l.map (fun x => (x - mean l) ^ 2)).sum / l.length

/-- Sample variance (`Series.std()` squared, `ddof=1`).  Meaningful (and
used) only when at least two observations exist, as in pandas where a
single observation yields `NaN`. -/
def sampleVar (l : List ℚ) : ℚ :=
  (l.map (fun x => (x - mean l) ^ 2)).sum / ((l.length : ℚ) - 1)

/-- Floor of a rational, written with `Int.fdiv` (floor division of the
numerator by the positive denominator) so that it evaluates by kernel
reduction. -/
def qfloor (x : ℚ) : ℤ := x.num.fdiv x.den

/-- Round a rational to the nearest integer, ties to even — the rounding
used by Python's built-in `round`. -/
def qround (x : ℚ) : ℤ :=
  let f : ℤ := qfloor x
  let r : ℚ := x - f
  if r < 1/2 then f
  else if 1/2 < r then f + 1
  else if f % 2 = 0 then f else f + 1

/-- Python's `round(x, k)`: round half-to-even at `k` decimal places. -/
def roundTo (k : ℕ) (x : ℚ) : ℚ := (qround (x * 10 ^ k) : ℚ) / 10 ^ k

/-- `round(x, 2)`, the monetary rounding used throughout the source. -/
def round2 (x : ℚ) : ℚ := roundTo 2 x

/-- Float division: `none` models a non-finite (`inf`/`nan`) result, which
arises exactly when the denominator is zero. -/
def fdiv (a b : ℚ) : Option ℚ := if b = 0 then none else some (a / b)

/-- Element of a price series at position `i` (`prices.iloc[i]`); the
default is never exposed because every use is index-guarded as in pandas. -/
def priceAt (ps : List ℚ) (i : ℕ) : ℚ := ps.getD i 0

/-- Last element of the series, `prices.iloc[-1]`. -/
def currentOf (ps : List ℚ) : ℚ := ps.getLastD 0

/-- One cell of `prices.pct_change()`: `NaN` at position 0, otherwise
`(p[i] - p[i-1]) / p[i-1]`. -/
def pctCell (ps : List ℚ) (i : ℕ) : Option ℚ :=
  if i = 0 then none
  else some ((priceAt ps i - priceAt ps (i - 1)) / priceAt ps (i - 1))

/-- One cell of `prices.rolling(window=w, min_periods=1).mean()`: the mean
of the trailing `w` prices (fewer at the start of the series).  With
`min_periods=1` this is total. -/
def ma (w : ℕ) (ps : List ℚ) (i : ℕ) : ℚ :=
  mean ((ps.take (i + 1)).drop (i + 1 - w))

/-- One cell of
`prices.pct_change().rolling(window=20, min_periods=1).std()`:
defined iff the trailing 20-entry window of `pct_change` holds at least two
valid observations (`std` with `ddof=1` of fewer observations is `NaN`).
The cell stores the sample *variance* of the window; the source takes its
square root, which is defined exactly when the variance is, so the missing
-value structure — all any theorem reads from this column — is identical. -/
def volCell (ps : List ℚ) (i : ℕ) : Option ℚ :=
  let lo := i + 1 - 20
  let vals := ((List.range (i + 1 - lo)).map (fun j => pctCell ps (lo + j))).filterMap id
  if 2 ≤ vals.length then some (sampleVar vals) else none

/-- One cell of `prices.pct_change(periods=10)`: `NaN` for the first ten
positions, otherwise `(p[i] - p[i-10]) / p[i-10]`. -/
def momCell (ps : List ℚ) (i : ℕ) : Option ℚ :=
  if i < 10 then none
  else some ((priceAt ps i - priceAt ps (i - 10)) / priceAt ps (i - 10))

/-- One cell of `prices.shift(k)`: `NaN` for the first `k` positions. -/
def lagCell (k : ℕ) (ps : List ℚ) (i : ℕ) : Option ℚ :=
  if i < k then none else some (priceAt ps (i - k))

/-- Materialise a column of length `n` from its cell function. -/
def colOf (f : ℕ → Option ℚ) (n : ℕ) : List (Option ℚ) :=
  (List.range n).map f

/-- `Series.fillna(method='bfill')`: each missing cell takes the next valid
value below it; a missing suffix stays missing. -/
def bfill : List (Option ℚ) → List (Option ℚ)
  | [] => []
  | some x :: rest => some x :: bfill rest
  | none :: rest => (bfill rest).headD none :: bfill rest

/-- Worker for `ffill`: `c` is the last valid value seen so far. -/
def ffillGo (c : Option ℚ) : List (Option ℚ) → List (Option ℚ)
  | [] => []
  | none :: rest => c :: ffillGo c rest
  | some x :: rest => some x :: ffillGo (some x) rest

/-- `Series.fillna(method='ffill')`: each missing cell takes the last valid
value above it; a missing prefix stays missing. -/
def ffill (l : List (Option ℚ)) : List (Option ℚ) := ffillGo none l

/-- `df.fillna(method='bfill').fillna(method='ffill')`, applied per column. -/
def fillna (l : List (Option ℚ)) : List (Option ℚ) := ffill (bfill l)

/-- `StockForecaster.prepare_features`: the eleven columns of the feature
frame (price, ma_5, ma_10, ma_20, price_to_ma5, price_to_ma20, volatility,
momentum, lag_1, lag_5, lag_10), each back-filled then forward-filled. -/
def prepare_features (ps : List ℚ) : List (List (Option ℚ)) :=
  let n := ps.length
  [colOf (fun i => some (priceAt ps i)) n,
   colOf (fun i => some (ma 5 ps i)) n,
   colOf (fun i => some (ma 10 ps i)) n,
   colOf (fun i => some (ma 20 ps i)) n,
   colOf (fun i => some (priceAt ps i / ma 5 ps i)) n,
   colOf (fun i => some (priceAt ps i / ma 20 ps i)) n,
   colOf (volCell ps) n,
   colOf (momCell ps) n,
   colOf (lagCell 1 ps) n,
   colOf (lagCell 5 ps) n,
   colOf (lagCell 10 ps) n].map fillna

/-! ## Multi-method forecaster (`forecast_prices` and its three methods) -/

/-- Result block of `_linear_trend_forecast` (the `method` string and no
other fields are omitted; no claim mentions them). -/
structure LinearBlock where
  predicted_price : ℚ
  daily_trend : ℚ
deriving DecidableEq, Repr

/-- Result block of `_moving_average_forecast`; `ma_30 = none` models the
string `"N/A"` reported when the series is shorter than 30. -/
structure MABlock where
  predicted_price : ℚ
  ma_10 : ℚ
  ma_30 : Option ℚ
deriving DecidableEq, Repr

/-- Result block of `_monte_carlo_forecast`.  The `std_dev`,
`percentile_5` and `percentile_95` fields of the source are omitted: no
claim mentions them and the non-degenerate ones are irrational
(square root, interpolated percentiles). -/
structure MCBlock where
  mean_price : ℚ
  method : String
deriving DecidableEq, Repr

/-- Result of `_analyze_confidence`.  The `forecast_spread_percent` and
`historical_volatility_annual` fields of the source are `round(·, 2)` of
irrational quantities and are mentioned by no claim; they are omitted.
The comparisons the source performs on those quantities are embedded
exactly, via `covLtB` and `highVolFlag`. -/
structure ConfBlock where
  confidence_level : String
  confidence_score : ℚ
  methods_agreement : String
deriving DecidableEq, Repr

/-- Result of `forecast_prices`. -/
structure ForecastResult where
  current_price : ℚ
  forecast_days : ℕ
  linear : LinearBlock
  ma : MABlock
  mc : MCBlock
  ensemble : ℚ
  confidence : ConfBlock
deriving DecidableEq, Repr

/-- Least-squares slope of `LinearRegression().fit(x, y)` with
`x = 0, …, n-1`.  For a single observation the centred design matrix is
zero and `lstsq` returns the minimal-norm coefficient `0`; the `den = 0`
branch reproduces that. -/
def olsSlope (ys : List ℚ) : ℚ :=
  let n := ys.length
  let xbar : ℚ := ((n : ℚ) - 1) / 2
  let ybar := mean ys
  let num := (ys.enum.map (fun p => ((p.1 : ℚ) - xbar) * (p.2 - ybar))).sum
  let den := ((List.range n).map (fun i => ((i : ℚ) - xbar) ^ 2)).sum
  if den = 0 then 0 else num / den

/-- Intercept of the fitted regression line. -/
def olsIntercept (ys : List ℚ) : ℚ :=
  mean ys - olsSlope ys * ((ys.length : ℚ) - 1) / 2

/-- Full-precision linear-trend prediction: the fitted line evaluated at
`future_x = len(prices) + days - 1`, before the output rounding. -/
def linFull (ps : List ℚ) (days : ℕ) : ℚ :=
  olsIntercept ps + olsSlope ps * ((ps.length : ℚ) + (days : ℚ) - 1)

/-- `_linear_trend_forecast`: predicted price rounded to 2 decimals,
daily trend (the slope) rounded to 4. -/
def linear_trend_forecast (ps : List ℚ) (days : ℕ) : LinearBlock :=
  ⟨round2 (linFull ps days), roundTo 4 (olsSlope ps)⟩

/-- The trend of `_moving_average_forecast`:
`(ma_short.iloc[-1] - ma_short.iloc[-10]) / 10` when the series has at
least 10 points, else `0`.  `iloc[-1]` is index `n-1` and `iloc[-10]` is
index `n-10`. -/
def maTrend (ps : List ℚ) : ℚ :=
  if 10 ≤ ps.length then
    (ma 10 ps (ps.length - 1) - ma 10 ps (ps.length - 10)) / 10
  else 0

/-- Full-precision moving-average prediction:
`current_price + recent_trend * days`, before the output rounding. -/
def maFull (ps : List ℚ) (days : ℕ) : ℚ := currentOf ps + maTrend ps * (days : ℚ)

/-- `_moving_average_forecast`. -/
def moving_average_forecast (ps : List ℚ) (days : ℕ) : MABlock :=
  ⟨round2 (maFull ps days),
   round2 (ma 10 ps (ps.length - 1)),
   if 30 ≤ ps.length then some (round2 (ma 30 ps (ps.length - 1))) else none⟩

/-- `prices.pct_change()` as a column. -/
def pctChangeList (ps : List ℚ) : List (Option ℚ) :=
  (List.range ps.length).map (pctCell ps)

/-- `prices.pct_change().dropna()`: the daily returns. -/
def returnsOf (ps : List ℚ) : List ℚ := (pctChangeList ps).filterMap id

/-- Terminal prices of the Monte-Carlo paths: each path multiplies the
current price by `(1 + r)` for its first `days` drawn returns, mirroring
the inner loop of `_monte_carlo_forecast`.  `draws` supplies the
`np.random.normal` samples, one list per simulated path. -/
def mcTerminals (ps : List ℚ) (days : ℕ) (draws : List (List ℚ)) : List ℚ :=
  draws.map (fun path => (path.take days).foldl (fun p r => p * (1 + r)) (currentOf ps))

/-- `_monte_carlo_forecast`: with fewer than 10 return observations it
falls back to the current price as `mean_price` — note, unrounded
(`float(prices.iloc[-1])`) — otherwise it reports the rounded mean of the
simulated terminal prices. -/
def monte_carlo_forecast (ps : List ℚ) (days : ℕ) (draws : List (List ℚ)) : MCBlock :=
  if (returnsOf ps).length < 10 then
    ⟨currentOf ps, "monte_carlo_insufficient_data"⟩
  else
    ⟨round2 (mean (mcTerminals ps days draws)), "monte_carlo_simulation"⟩

/-- Full-precision Monte-Carlo mean: the mean terminal price before the
output rounding (the insufficient-data fallback is already full
precision). -/
def mcMeanFull (ps : List ℚ) (days : ℕ) (draws : List (List ℚ)) : ℚ :=
  if (returnsOf ps).length < 10 then currentOf ps
  else mean (mcTerminals ps days draws)

/-! ## Confidence analyzer (`_analyze_confidence`)

The source compares `coefficient_of_variation = 100 * σ / μ` (where
`σ = np.std(forecasts)`, population standard deviation, and
`μ = np.mean(forecasts)`; `cov = 100` when `μ = 0`) against the positive
thresholds 5, 10, 15, 20.  `σ` is an irrational square root, so the
comparison is embedded by the equivalent rational test `covLtB` on the
variance `q = σ²`; `covLtB_iff` below proves the encoding equal to the
real-valued comparison. -/

/-- The comparison `coefficient_of_variation < t` for a positive threshold
`t`, with `q` the population variance and `μ` the mean of the three
forecasts: when `μ = 0` the source sets the coefficient to `100`; when
`μ > 0` the coefficient is the nonnegative `100·√q/μ` and squaring both
sides gives `10000·q < t²·μ²`; when `μ < 0` the coefficient is nonpositive,
hence below any positive threshold. -/
def covLtB (q μ t : ℚ) : Bool :=
  if μ = 0 then decide ((100 : ℚ) < t)
  else if 0 < μ then decide (10000 * q < t ^ 2 * μ ^ 2)
  else true

/-- Annualized historical volatility condition
`returns.std() * sqrt(252) * 100 > 50` of the source: `NaN` (fewer than
two return observations) compares false; otherwise both sides are
nonnegative and squaring gives `2520000 · var > 2500`
(`highVolFlag_iff` below proves the encoding equal to the real-valued
comparison). -/
def highVolFlag (ps : List ℚ) : Bool :=
  if 2 ≤ (returnsOf ps).length then
    decide ((2500 : ℚ) < 2520000 * sampleVar (returnsOf ps))
  else false

/-- The base `(confidence, confidence_score)` pair chosen from the
coefficient of variation, before the volatility downgrade. -/
def baseConfidence (a b c : ℚ) : String × ℚ :=
  let q := popVar [a, b, c]
  let μ := mean [a, b, c]
  if covLtB q μ 5 then ("high", 90)
  else if covLtB q μ 10 then ("moderate", 70)
  else if covLtB q μ 20 then ("low", 50)
  else ("very_low", 30)

/-- The `methods_agreement` label: same coefficient of variation, distinct
breakpoints 5 and 15. -/
def methodsAgreement (a b c : ℚ) : String :=
  let q := popVar [a, b, c]
  let μ := mean [a, b, c]
  if covLtB q μ 5 then "high"
  else if covLtB q μ 15 then "moderate"
  else "low"

/-- `_analyze_confidence`, taking the three method predictions exactly as
they appear in the method result blocks (the source passes
`linear["predicted_price"]`, `ma["predicted_price"]`,
`monte_carlo["mean_price"]`). -/
def analyze_confidence (ps : List ℚ) (a b c : ℚ) : ConfBlock :=
  let base := baseConfidence a b c
  if highVolFlag ps then
    ⟨if base.1 = "moderate" then "low" else "very_low",
     (qround (base.2 * (7/10)) : ℚ),
     methodsAgreement a b c⟩
  else
    ⟨base.1, (qround base.2 : ℚ), methodsAgreement a b c⟩

/-- `forecast_prices`.  On an empty series the source crashes at
`float(prices.iloc[-1])` with an unhandled `IndexError`; that crash is
modelled by `none`.  On a nonempty series it returns the four forecast
blocks and the confidence analysis; the ensemble averages the three
method values exactly as stored in the blocks. -/
def forecast_prices (ps : List ℚ) (days : ℕ) (draws : List (List ℚ)) :
    Option ForecastResult :=
  if ps = [] then none
  else
    let lin := linear_trend_forecast ps days
    let maB := moving_average_forecast ps days
    let mc := monte_carlo_forecast ps days draws
    some
      { current_price := round2 (currentOf ps)
        forecast_days := days
        linear := lin
        ma := maB
        mc := mc
        ensemble := round2 ((lin.predicted_price + maB.predicted_price + mc.mean_price) / 3)
        confidence := analyze_confidence ps lin.predicted_price maB.predicted_price mc.mean_price }

/-! ## Signal generator (`generate_signals`) -/

/-- Result of `generate_signals`: either the single-field
`{"signal": "insufficient_data"}` record, or the full five-field record. -/
inductive SignalResult where
  | insufficientData : SignalResult
  | ok (primary_signal : String) (all_signals : List String)
      (rsi : ℚ) (price_to_ma20 : ℚ) (momentum_20d : ℚ) : SignalResult
deriving DecidableEq, Repr

/-- The `rsi` field of a signal result, when one exists. -/
def rsiOf : SignalResult → Option ℚ
  | .insufficientData => none
  | .ok _ _ r _ _ => some r

/-- The `all_signals` field of a signal result (empty for the
insufficient-data record, which has no such field). -/
def signalsOf : SignalResult → List String
  | .insufficientData => []
  | .ok _ s _ _ _ => s

/-- The trailing `k`-element window of a list. -/
def lastWin (k : ℕ) (l : List ℚ) : List ℚ := l.drop (l.length - k)

/-- `prices.rolling(window=20).mean().iloc[-1]` for a series of length at
least 20 (guaranteed by the guard in `generate_signals`). -/
def ma20of (ps : List ℚ) : ℚ := mean (lastWin 20 ps)

/-- `ma_50`: trailing-50 mean when 50 points exist, else `ma_20`. -/
def ma50of (ps : List ℚ) : ℚ :=
  if 50 ≤ ps.length then mean (lastWin 50 ps) else ma20of ps

/-- `prices.diff()` at position `i ≥ 1`. -/
def deltaAt (ps : List ℚ) (i : ℕ) : ℚ := priceAt ps i - priceAt ps (i - 1)

/-- `gain.iloc[-1]`: mean of the positive parts of the last 14 deltas
(the rolling-14 window is full and valid since the series has at least 20
points). -/
def gain14 (ps : List ℚ) : ℚ :=
  ((List.range 14).map (fun j => max 0 (deltaAt ps (ps.length - 14 + j)))).sum / 14

/-- `loss.iloc[-1]`: mean of the magnitudes of the negative parts of the
last 14 deltas. -/
def loss14 (ps : List ℚ) : ℚ :=
  ((List.range 14).map (fun j => max 0 (-deltaAt ps (ps.length - 14 + j)))).sum / 14

/-- `rs = gain / loss if loss != 0 else 0`. -/
def rsVal (ps : List ℚ) : ℚ :=
  if loss14 ps ≠ 0 then gain14 ps / loss14 ps else 0

/-- `rsi = 100 - 100/(1+rs) if rs != 0 else 50`; `rs ≥ 0` always, so the
inner division is by a positive number and plain division is faithful. -/
def rsiVal (ps : List ℚ) : ℚ :=
  if rsVal ps ≠ 0 then 100 - 100 / (1 + rsVal ps) else 50

/-- The momentum expression
`(current - prices.iloc[-20]) / prices.iloc[-20] * 100 if len >= 20 else 0`.
The division is a float division: a zero reference price gives a
non-finite result, modelled as `none`. -/
def momentumVal (ps : List ℚ) : Option ℚ :=
  if 20 ≤ ps.length then
    (fdiv (currentOf ps - priceAt ps (ps.length - 20)) (priceAt ps (ps.length - 20))).map
      (· * 100)
  else some 0

/-- The trend signals, appended first. -/
def trendSignals (ps : List ℚ) : List String :=
  if currentOf ps > ma20of ps ∧ ma20of ps > ma50of ps then ["bullish_trend"]
  else if currentOf ps < ma20of ps ∧ ma20of ps < ma50of ps then ["bearish_trend"]
  else []

/-- The overbought/oversold signals, appended second. -/
def rsiSignals (ps : List ℚ) : List String :=
  if 70 < rsiVal ps then ["overbought"]
  else if rsiVal ps < 30 then ["oversold"]
  else []

/-- The momentum signals, appended last. -/
def momSignals (m : ℚ) : List String :=
  if 10 < m then ["strong_momentum"]
  else if m < -10 then ["weak_momentum"]
  else []

/-- `generate_signals`.  A series shorter than 20 yields exactly the
single-field insufficient-data record.  Otherwise the five-field record is
built; `none` models a record that would contain a non-finite float (the
momentum or price-to-MA20 division by zero). -/
def generate_signals (ps : List ℚ) : Option SignalResult :=
  if ps.length < 20 then some .insufficientData
  else
    (momentumVal ps).bind fun m =>
      (fdiv (currentOf ps) (ma20of ps)).map fun ptm =>
        let sigs := trendSignals ps ++ rsiSignals ps ++ momSignals m
        .ok (sigs.headD "neutral") sigs (round2 (rsiVal ps))
          (round2 ((ptm - 1) * 100)) (round2 m)

/-! ## Spec-side definitions used by refinement comparisons -/

/-- Modelled from the spec (§4.3b, claim C4): the moving-average trend as
the spec words it — "MA10 at last point − MA10 ten points earlier", i.e.
index `(n-1) - 10`, divided by 10 — to be compared with the source's
`maTrend`, which reads index `n - 10` (nine points earlier). -/
def maTrendSpec (ps : List ℚ) : ℚ :=
  if 10 ≤ ps.length then
    (ma 10 ps (ps.length - 1) - ma 10 ps (ps.length - 1 - 10)) / 10
  else 0

/-- Modelled from the spec (§4.3b, claim C4): predicted price from the
spec-worded trend. -/
def maPredictedSpec (ps : List ℚ) (days : ℕ) : ℚ :=
  currentOf ps + maTrendSpec ps * (days : ℚ)

/-- Modelled from the spec (§3 invariant, claim C3): the ensemble
prediction as the spec describes it — the rounded mean of the three
*full-precision* method predictions — to be compared with the source's
ensemble, which averages the already-rounded block values. -/
def ensembleFullPrec (ps : List ℚ) (days : ℕ) (draws : List (List ℚ)) : ℚ :=
  round2 ((linFull ps days + maFull ps days + mcMeanFull ps days draws) / 3)

/-! ## Missing-value propagation lemmas for the feature builder -/

/-- Once forward-fill carries a valid value, every later cell is valid. -/
theorem ffillGo_some_of_carry (x : ℚ) :
    ∀ l : List (Option ℚ), ∀ y ∈ ffillGo (some x) l, y.isSome = true := by
  intro l
  induction l generalizing x with
  | nil => intro y hy; cases hy
  | cons a rest ih =>
    intro y hy
    cases a with
    | none =>
      rw [ffillGo] at hy
      rcases List.mem_cons.mp hy with rfl | hy
      · rfl
      · exact ih x y hy
    | some z =>
      rw [ffillGo] at hy
      rcases List.mem_cons.mp hy with rfl | hy
      · rfl
      · exact ih z y hy

/-- If a column holds at least one valid value, its back-fill starts with a
valid value. -/
theorem bfill_cons_some {l : List (Option ℚ)} (h : ∃ a ∈ l, a.isSome = true) :
    ∃ x t, bfill l = some x :: t := by
  induction l with
  | nil => rcases h with ⟨a, ha, _⟩; cases ha
  | cons a rest ih =>
    cases a with
    | some x => exact ⟨x, bfill rest, rfl⟩
    | none =>
      have hrest : ∃ a ∈ rest, a.isSome = true := by
        rcases h with ⟨a, ha, hsome⟩
        rcases List.mem_cons.mp ha with rfl | ha
        · cases hsome
        · exact ⟨a, ha, hsome⟩
      rcases ih hrest with ⟨x, t, hx⟩
      exact ⟨x, some x :: t, by rw [bfill, hx]; rfl⟩

/-- Back-fill followed by forward-fill leaves no missing cell in a column
holding at least one valid value. -/
theorem fillna_all_some {l : List (Option ℚ)} (h : ∃ a ∈ l, a.isSome = true) :
    ∀ y ∈ fillna l, y.isSome = true := by
  rcases bfill_cons_some h with ⟨x, t, hx⟩
  intro y hy
  rw [fillna, ffill, hx, ffillGo] at hy
  rcases List.mem_cons.mp hy with rfl | hy
  · rfl
  · exact ffillGo_some_of_carry x t y hy

/-- A column built from a cell function holds a valid value as soon as one
in-range cell is valid. -/
theorem colOf_exists_some (f : ℕ → Option ℚ) (n i : ℕ) (hi : i < n)
    (hf : (f i).isSome = true) : ∃ a ∈ colOf f n, a.isSome = true :=
  ⟨f i, List.mem_map.mpr ⟨i, List.mem_range.mpr hi, rfl⟩, hf⟩

/-- Claim C2 counterexample: for the positive price series `[100, 101]` of
length 2, the feature frame returned by `prepare_features` still contains
missing values (the momentum, volatility, lag_5 and lag_10 columns are
entirely missing, so back-fill-then-forward-fill has nothing to
propagate); the claimed absence of missing values for every series of
length at least 2 is false. -/
theorem prepare_features_len2_misses :
    (2 : ℕ) ≤ ([100, 101] : List ℚ).length ∧
    (∀ p ∈ ([100, 101] : List ℚ), 0 < p) ∧
    ¬ (∀ col ∈ prepare_features [100, 101], ∀ cell ∈ col, cell.isSome = true) := by
  refine ⟨by decide, by decide, ?_⟩
  decide

/-- Claim C2, amended: for every price series of length at least 11 (the
least length at which the momentum and lag_10 columns acquire a valid
cell), the feature frame contains no missing value in any row of any
column. -/
theorem prepare_features_no_missing (ps : List ℚ) (hlen : 11 ≤ ps.length)
    (hpos : ∀ p ∈ ps, 0 < p) :
    ∀ col ∈ prepare_features ps, ∀ cell ∈ col, cell.isSome = true := by
  intro col hcol
  rw [prepare_features] at hcol
  rcases List.mem_map.mp hcol with ⟨c, hc, rfl⟩
  have h0 : 0 < ps.length := by omega
  have h2 : 2 < ps.length := by omega
  have h10 : 10 < ps.length := by omega
  have h1 : 1 < ps.length := by omega
  have h5 : 5 < ps.length := by omega
  have hvol : (volCell ps 2).isSome = true := by
    rw [volCell]
    norm_num [List.range_succ, pctCell, List.filterMap_cons, List.filterMap_nil]
  have hmom : (momCell ps 10).isSome = true := by rw [momCell]; norm_num
  have hlag : ∀ k, ¬ k < k → (lagCell k ps k).isSome = true := by
    intro k hk
    rw [lagCell, if_neg hk]
    rfl
  fin_cases hc <;>
    refine fillna_all_some ?_
  · exact colOf_exists_some _ _ 0 h0 rfl
  · exact colOf_exists_some _ _ 0 h0 rfl
  · exact colOf_exists_some _ _ 0 h0 rfl
  · exact colOf_exists_some _ _ 0 h0 rfl
  · exact colOf_exists_some _ _ 0 h0 rfl
  · exact colOf_exists_some _ _ 0 h0 rfl
  · exact colOf_exists_some _ _ 2 h2 hvol
  · exact colOf_exists_some _ _ 10 h10 hmom
  · exact colOf_exists_some _ _ 1 h1 (hlag 1 (by omega))
  · exact colOf_exists_some _ _ 5 h5 (hlag 5 (by omega))
  · exact colOf_exists_some _ _ 10 h10 (hlag 10 (by omega))

/-- Witness for the amended C2 theorem at a concrete series of length 11. -/
theorem prepare_features_no_missing_witness :
    ((prepare_features [1, 2, 3, 4, 5, 6, 7, 8, 9, 10, 11]).all fun col =>
      col.all Option.isSome) = true := by
  have h := prepare_features_no_missing [1, 2, 3, 4, 5, 6, 7, 8, 9, 10, 11]
    (by decide) (by decide)
  rw [List.all_eq_true]
  intro col hcol
  rw [List.all_eq_true]
  intro cell hcell
  exact h col hcol cell hcell

/-! ## Ensemble identity and rounding boundary -/

/-- Claim C1: whenever `forecast_prices` returns a result, its ensemble
prediction is exactly the 2-decimal rounding of the arithmetic mean of the
three per-method predictions appearing in that same result (linear trend
`predicted_price`, moving-average `predicted_price`, Monte-Carlo
`mean_price`), for every price series, horizon, and draw of the
Monte-Carlo random returns. -/
theorem ensemble_eq_round_mean (ps : List ℚ) (days : ℕ) (draws : List (List ℚ))
    (r : ForecastResult) (h : forecast_prices ps days draws = some r) :
    r.ensemble =
      round2 ((r.linear.predicted_price + r.ma.predicted_price + r.mc.mean_price) / 3) := by
  rw [forecast_prices] at h
  split at h
  · cases h
  · simp only [Option.some.injEq] at h
    subst h
    rfl

/-- Witness for C1 at the concrete series `[1, 2]`, horizon 5. -/
theorem ensemble_eq_round_mean_witness :
    ∃ r, forecast_prices [1, 2] 5 [] = some r ∧
      r.ensemble =
        round2 ((r.linear.predicted_price + r.ma.predicted_price + r.mc.mean_price) / 3) :=
  ⟨_, rfl, ensemble_eq_round_mean [1, 2] 5 [] _ rfl⟩

/-- Claim C3 counterexample: for the series `[99.994, 100.004]`, horizon 1,
the returned ensemble (computed by the source from the already-rounded
method outputs) differs from the spec-worded `ensembleFullPrec` (rounded
mean of the full-precision method predictions), and the Monte-Carlo
insufficient-data fallback's `mean_price` (100.004) is not rounded at the
output boundary. -/
theorem rounding_boundary_counterexample :
    ∃ r, forecast_prices [99994/1000, 100004/1000] 1 [] = some r ∧
      r.ensemble ≠ ensembleFullPrec [99994/1000, 100004/1000] 1 [] ∧
      r.mc.mean_price ≠ round2 r.mc.mean_price :=
  ⟨_, rfl, by decide, by decide⟩

/-- Claim C3, amended: monetary values are rounded to 2 decimals inside
each method block — the linear and moving-average `predicted_price` are the
rounded full-precision predictions — but the ensemble prediction and the
confidence analysis are computed from those already-rounded block values
(not from full precision), and the Monte-Carlo insufficient-data
fallback's `mean_price` is returned at full precision, unrounded. -/
theorem method_boundary_rounding (ps : List ℚ) (days : ℕ) (draws : List (List ℚ))
    (r : ForecastResult) (h : forecast_prices ps days draws = some r) :
    r.linear.predicted_price = round2 (linFull ps days) ∧
    r.ma.predicted_price = round2 (maFull ps days) ∧
    r.confidence =
      analyze_confidence ps r.linear.predicted_price r.ma.predicted_price r.mc.mean_price ∧
    ((returnsOf ps).length < 10 → r.mc.mean_price = currentOf ps) := by
  rw [forecast_prices] at h
  split at h
  · cases h
  · simp only [Option.some.injEq] at h
    subst h
    refine ⟨rfl, rfl, rfl, ?_⟩
    intro h10
    show (monte_carlo_forecast ps days draws).mean_price = currentOf ps
    rw [monte_carlo_forecast, if_pos h10]

/-- Witness for the amended C3 theorem at the series `[2, 4]`, horizon 3. -/
theorem method_boundary_rounding_witness :
    ∃ r, forecast_prices [2, 4] 3 [] = some r ∧
      (r.linear.predicted_price = round2 (linFull [2, 4] 3) ∧
       r.ma.predicted_price = round2 (maFull [2, 4] 3) ∧
       r.confidence =
         analyze_confidence [2, 4] r.linear.predicted_price r.ma.predicted_price
           r.mc.mean_price ∧
       ((returnsOf [2, 4]).length < 10 → r.mc.mean_price = currentOf [2, 4])) :=
  ⟨_, rfl, method_boundary_rounding [2, 4] 3 [] _ rfl⟩

/-! ## Moving-average trend (claim C4) -/

/-- Claim C4 counterexample: for the series `1, …, 12` with horizon 10 the
source's moving-average forecast is `17.5` (it reads the MA10 value at
`iloc[-10]`, nine points before the last), while the spec-worded trend —
MA10 ten points earlier — predicts `18`; the claimed equality fails. -/
theorem ma_trend_offset_counterexample :
    (moving_average_forecast [1, 2, 3, 4, 5, 6, 7, 8, 9, 10, 11, 12] 10).predicted_price
        = 35/2 ∧
    maPredictedSpec [1, 2, 3, 4, 5, 6, 7, 8, 9, 10, 11, 12] 10 = 18 ∧
    (moving_average_forecast [1, 2, 3, 4, 5, 6, 7, 8, 9, 10, 11, 12] 10).predicted_price
        ≠ round2 (maPredictedSpec [1, 2, 3, 4, 5, 6, 7, 8, 9, 10, 11, 12] 10) := by
  refine ⟨by decide, by decide, by decide⟩

/-- Claim C4, amended: the moving-average forecast's trend is
`(MA10 at the last point − MA10 at the tenth-from-last point, i.e. nine
points earlier) / 10` when the series has at least 10 points and `0`
otherwise, and its predicted price is the 2-decimal rounding of the last
price plus trend times the horizon. -/
theorem ma_forecast_trend (ps : List ℚ) (days : ℕ) :
    (moving_average_forecast ps days).predicted_price
        = round2 (currentOf ps + maTrend ps * (days : ℚ)) ∧
    (10 ≤ ps.length →
      maTrend ps = (ma 10 ps (ps.length - 1) - ma 10 ps (ps.length - 10)) / 10) ∧
    (ps.length < 10 → maTrend ps = 0) := by
  refine ⟨rfl, ?_, ?_⟩
  · intro h
    rw [maTrend, if_pos h]
  · intro h
    rw [maTrend, if_neg (by omega)]

/-- Witness for the amended C4 theorem at the series `1, …, 12`. -/
theorem ma_forecast_trend_witness :
    (moving_average_forecast [1, 2, 3, 4, 5, 6, 7, 8, 9, 10, 11, 12] 10).predicted_price
        = round2 (currentOf [1, 2, 3, 4, 5, 6, 7, 8, 9, 10, 11, 12]
            + maTrend [1, 2, 3, 4, 5, 6, 7, 8, 9, 10, 11, 12] * (10 : ℚ)) ∧
    maTrend [1, 2, 3, 4, 5, 6, 7, 8, 9, 10, 11, 12]
        = (ma 10 [1, 2, 3, 4, 5, 6, 7, 8, 9, 10, 11, 12] 11
            - ma 10 [1, 2, 3, 4, 5, 6, 7, 8, 9, 10, 11, 12] 2) / 10 :=
  ⟨(ma_forecast_trend [1, 2, 3, 4, 5, 6, 7, 8, 9, 10, 11, 12] 10).1,
   (ma_forecast_trend [1, 2, 3, 4, 5, 6, 7, 8, 9, 10, 11, 12] 10).2.1 (by decide)⟩

/-! ## Input validation of the forecast entry point (claim C6) -/

/-- Claim C6 counterexample: on the empty series the forecast entry point
does not return an explicit error result — it crashes
(`float(prices.iloc[-1])` raises an unhandled `IndexError`, modelled as
`none`). -/
theorem forecast_empty_crashes : forecast_prices [] 30 [] = none := rfl

/-- Claim C6, amended: `forecast_prices` performs no input validation of
its own: on an empty series it crashes with an unhandled `IndexError`
(modelled as `none`) instead of failing with an explicit error result, and
on every nonempty series — however short — it returns a normal forecast
result, degrading through the per-method fallbacks rather than failing. -/
theorem forecast_no_explicit_error (ps : List ℚ) (days : ℕ) (draws : List (List ℚ)) :
    (ps = [] → forecast_prices ps days draws = none) ∧
    (ps ≠ [] → (forecast_prices ps days draws).isSome = true) := by
  constructor
  · intro h
    rw [forecast_prices, if_pos h]
  · intro h
    rw [forecast_prices, if_neg h]
    rfl

/-- Witness for the amended C6 theorem: the empty series crashes; the
one-point series `[5]` still produces a result. -/
theorem forecast_no_explicit_error_witness :
    forecast_prices ([] : List ℚ) 30 [] = none ∧
    (forecast_prices [5] 30 []).isSome = true :=
  ⟨(forecast_no_explicit_error [] 30 []).1 rfl,
   (forecast_no_explicit_error [5] 30 []).2 (by decide)⟩

/-! ## Signal generator lemmas -/

/-- With a zero 14-period average loss the source sets `rs = 0`. -/
theorem rsVal_of_loss_zero {ps : List ℚ} (h : loss14 ps = 0) : rsVal ps = 0 := by
  rw [rsVal, if_neg (by simp [h])]

/-- With a zero 14-period average gain the source also gets `rs = 0`:
either the loss is zero (`rs = 0` by the guard) or `rs = 0 / loss = 0`. -/
theorem rsVal_of_gain_zero {ps : List ℚ} (h : gain14 ps = 0) : rsVal ps = 0 := by
  rw [rsVal]
  split
  · rw [h, zero_div]
  · rfl

/-- With `rs = 0` the source fixes `rsi = 50`. -/
theorem rsiVal_of_rs_zero {ps : List ℚ} (h : rsVal ps = 0) : rsiVal ps = 50 := by
  rw [rsiVal, if_neg (by simp [h])]

/-- A positive price series has a positive trailing-20 moving average. -/
theorem ma20of_pos {ps : List ℚ} (h20 : 20 ≤ ps.length)
    (hpos : ∀ p ∈ ps, 0 < p) : 0 < ma20of ps := by
  have hlen : (lastWin 20 ps).length = 20 := by
    rw [lastWin, List.length_drop]
    omega
  have hne : lastWin 20 ps ≠ [] := by
    intro h
    rw [h] at hlen
    cases hlen
  have hsum : 0 < (lastWin 20 ps).sum :=
    List.sum_pos _ (fun x hx => hpos x (List.drop_subset _ _ hx)) hne
  have : (0 : ℚ) < ((lastWin 20 ps).length : ℚ) := by
    rw [hlen]; norm_num
  exact div_pos hsum this

/-- The element a positive series holds at a valid position is positive. -/
theorem priceAt_pos {ps : List ℚ} (hpos : ∀ p ∈ ps, 0 < p) {i : ℕ}
    (hi : i < ps.length) : 0 < priceAt ps i := by
  rw [priceAt, List.getD_eq_getElem _ _ hi]
  exact hpos _ (List.getElem_mem hi)

/-- Evaluation of `generate_signals` on a well-formed series: with at
least 20 positive prices both float divisions are finite and the full
five-field record is returned. -/
theorem generate_signals_some (ps : List ℚ) (h20 : 20 ≤ ps.length)
    (hpos : ∀ p ∈ ps, 0 < p) :
    ∃ m : ℚ, momentumVal ps = some m ∧
      generate_signals ps =
        some (.ok ((trendSignals ps ++ rsiSignals ps ++ momSignals m).headD "neutral")
          (trendSignals ps ++ rsiSignals ps ++ momSignals m)
          (round2 (rsiVal ps))
          (round2 ((currentOf ps / ma20of ps - 1) * 100))
          (round2 m)) := by
  have href : 0 < priceAt ps (ps.length - 20) := priceAt_pos hpos (by omega)
  have hma : ma20of ps ≠ 0 := ne_of_gt (ma20of_pos h20 hpos)
  refine ⟨(currentOf ps - priceAt ps (ps.length - 20)) / priceAt ps (ps.length - 20) * 100,
    ?_, ?_⟩
  · rw [momentumVal, if_pos h20, fdiv, if_neg (ne_of_gt href)]
    rfl
  · rw [generate_signals, if_neg (by omega)]
    rw [momentumVal, if_pos h20, fdiv, if_neg (ne_of_gt href)]
    rw [fdiv, if_neg hma]
    rfl

/-- Claim C8: a price series shorter than 20 observations makes
`generate_signals` return exactly the single-field
`{"signal": "insufficient_data"}` record — no rsi, momentum or
signal-list fields exist on that record. -/
theorem signals_insufficient_data (ps : List ℚ) (h : ps.length < 20) :
    generate_signals ps = some .insufficientData := by
  rw [generate_signals, if_pos h]

/-- Witness for C8 at the concrete three-point series. -/
theorem signals_insufficient_data_witness :
    generate_signals [1, 2, 3] = some .insufficientData :=
  signals_insufficient_data [1, 2, 3] (by decide)

/-- On an adjacently strictly increasing series of length at least 15 the
14-period average loss is zero (every delta in the trailing window is
positive). -/
theorem loss14_zero_of_increasing (ps : List ℚ) (h15 : 15 ≤ ps.length)
    (hinc : List.Chain' (· < ·) ps) : loss14 ps = 0 := by
  have hget := List.chain'_iff_get.mp hinc
  rw [loss14]
  have hz : ∀ x ∈ (List.range 14).map
      (fun j => max 0 (-deltaAt ps (ps.length - 14 + j))), x = 0 := by
    intro x hx
    rcases List.mem_map.mp hx with ⟨j, hjmem, rfl⟩
    have hj := List.mem_range.mp hjmem
    show max 0 (-deltaAt ps (ps.length - 14 + j)) = 0
    have h1 : 1 ≤ ps.length - 14 + j := by omega
    have h2 : ps.length - 14 + j < ps.length := by omega
    have hprev : ps.length - 14 + j - 1 < ps.length - 1 := by omega
    have hstep := hget (ps.length - 14 + j - 1) hprev
    have hd : 0 < deltaAt ps (ps.length - 14 + j) := by
      rw [deltaAt, priceAt, priceAt,
        List.getD_eq_getElem _ _ h2,
        List.getD_eq_getElem _ _ (show ps.length - 14 + j - 1 < ps.length by omega)]
      rw [sub_pos]
      have heq : ps.length - 14 + j - 1 + 1 = ps.length - 14 + j := by omega
      simpa [List.get_eq_getElem, heq] using hstep
    exact max_eq_left (by linarith)
  rw [List.sum_eq_zero hz, zero_div]

/-- When every delta in the trailing 14-window is non-positive the
14-period average gain is zero. -/
theorem gain14_zero_of_nonpos (ps : List ℚ)
    (hnp : ∀ j, j < 14 → deltaAt ps (ps.length - 14 + j) ≤ 0) : gain14 ps = 0 := by
  rw [gain14]
  have hz : ∀ x ∈ (List.range 14).map
      (fun j => max 0 (deltaAt ps (ps.length - 14 + j))), x = 0 := by
    intro x hx
    rcases List.mem_map.mp hx with ⟨j, hjmem, rfl⟩
    have hj := List.mem_range.mp hjmem
    show max 0 (deltaAt ps (ps.length - 14 + j)) = 0
    exact max_eq_left (hnp j hj)
  rw [List.sum_eq_zero hz, zero_div]

/-- Claim C7 counterexample: the series starting at price 0 followed by
19 positive prices has length 20 and a zero momentum reference price
(`prices.iloc[-20] = 0`); `generate_signals` then propagates the
division-by-zero fault (a non-finite float, modelled `none`) instead of
substituting a guarded momentum value — the only guard on the momentum
division is the unreachable length test. -/
theorem momentum_zero_ref_unguarded :
    (20 : ℕ) ≤ ((0 : ℚ) :: List.replicate 19 100).length ∧
    priceAt ((0 : ℚ) :: List.replicate 19 100)
        (((0 : ℚ) :: List.replicate 19 100).length - 20) = 0 ∧
    generate_signals ((0 : ℚ) :: List.replicate 19 100) = none := by
  refine ⟨by decide, by decide, by decide⟩

/-- Claim C7, amended: the first two division-by-zero guards are as
claimed — a zero mean across the three ensemble predictions makes every
coefficient-of-variation comparison behave as `cov = 100`, and a zero
14-period average loss yields `rs = 0` and `rsi = 50` — but the momentum
division has no zero-reference-price guard: its only guard tests
`len(prices) >= 20`, which always holds at that point, so a zero momentum
reference price propagates a non-finite division result (modelled `none`)
rather than a substitute value. -/
theorem division_guards :
    (∀ a b c : ℚ, mean [a, b, c] = 0 →
      ∀ t : ℚ, covLtB (popVar [a, b, c]) (mean [a, b, c]) t
        = decide ((100 : ℚ) < t)) ∧
    (∀ ps : List ℚ, loss14 ps = 0 → rsVal ps = 0 ∧ rsiVal ps = 50) ∧
    (∀ ps : List ℚ, 20 ≤ ps.length → priceAt ps (ps.length - 20) = 0 →
      generate_signals ps = none) := by
  refine ⟨?_, ?_, ?_⟩
  · intro a b c h t
    rw [covLtB, if_pos h]
  · intro ps h
    exact ⟨rsVal_of_loss_zero h, rsiVal_of_rs_zero (rsVal_of_loss_zero h)⟩
  · intro ps h20 h0
    rw [generate_signals, if_neg (by omega), momentumVal, if_pos h20, h0, fdiv,
      if_pos rfl]
    rfl

/-- Witness for the amended C7 theorem: a zero-mean prediction triple, a
flat series (zero average loss), and the zero-reference-price series. -/
theorem division_guards_witness :
    covLtB (popVar [1, 1, -2]) (mean [1, 1, -2]) 5 = decide ((100 : ℚ) < 5) ∧
    (rsVal (List.replicate 20 (7 : ℚ)) = 0 ∧ rsiVal (List.replicate 20 (7 : ℚ)) = 50) ∧
    generate_signals ((0 : ℚ) :: List.replicate 19 (3 : ℚ)) = none :=
  ⟨division_guards.1 1 1 (-2) (by decide) 5,
   division_guards.2.1 (List.replicate 20 (7 : ℚ)) (by decide),
   division_guards.2.2 ((0 : ℚ) :: List.replicate 19 (3 : ℚ)) (by decide) (by decide)⟩

/-- Claim C9 counterexample: the strictly increasing 15-point series
`1, …, 15` makes `generate_signals` return the insufficient-data record:
no `rsi` is computed, let alone reported as 50 — the generator requires 20
observations, not 15. -/
theorem rsi_len15_not_reported :
    generate_signals [1, 2, 3, 4, 5, 6, 7, 8, 9, 10, 11, 12, 13, 14, 15]
        = some SignalResult.insufficientData ∧
    (generate_signals [1, 2, 3, 4, 5, 6, 7, 8, 9, 10, 11, 12, 13, 14, 15]).bind rsiOf
        = none := by
  refine ⟨by decide, by decide⟩

/-- Claim C9, amended: for every strictly (adjacently) increasing positive
price series of length at least 20 — the generator's actual minimum —
the 14-period average loss is zero and the reported `rsi` is 50. -/
theorem rsi_fifty_on_increasing (ps : List ℚ) (h20 : 20 ≤ ps.length)
    (hpos : ∀ p ∈ ps, 0 < p) (hinc : List.Chain' (· < ·) ps) :
    loss14 ps = 0 ∧ (generate_signals ps).bind rsiOf = some 50 := by
  have hloss : loss14 ps = 0 := loss14_zero_of_increasing ps (by omega) hinc
  refine ⟨hloss, ?_⟩
  rcases generate_signals_some ps h20 hpos with ⟨m, _, hgen⟩
  rw [hgen]
  show some (round2 (rsiVal ps)) = some 50
  rw [rsiVal_of_rs_zero (rsVal_of_loss_zero hloss)]
  decide

/-- Witness for the amended C9 theorem at the series `1, …, 20`. -/
theorem rsi_fifty_on_increasing_witness :
    loss14 [1, 2, 3, 4, 5, 6, 7, 8, 9, 10, 11, 12, 13, 14, 15, 16, 17, 18, 19, 20] = 0 ∧
    (generate_signals
        [1, 2, 3, 4, 5, 6, 7, 8, 9, 10, 11, 12, 13, 14, 15, 16, 17, 18, 19, 20]).bind rsiOf
      = some 50 :=
  rsi_fifty_on_increasing
    [1, 2, 3, 4, 5, 6, 7, 8, 9, 10, 11, 12, 13, 14, 15, 16, 17, 18, 19, 20]
    (by decide) (by decide) (by norm_num [List.chain'_cons])

/-- Claim C10: for every positive price series of length at least 20 whose
last 14 daily deltas are all non-positive — a strictly decreasing tail,
say — the 14-period average gain is zero, so `rs = 0` regardless of the
loss, the reported `rsi` is 50 (not the textbook 0), and consequently the
`"oversold"` signal is never emitted for such a series. -/
theorem rsi_fifty_on_nonpositive (ps : List ℚ) (h20 : 20 ≤ ps.length)
    (hpos : ∀ p ∈ ps, 0 < p)
    (hnp : ∀ j, j < 14 → deltaAt ps (ps.length - 14 + j) ≤ 0) :
    gain14 ps = 0 ∧ (generate_signals ps).bind rsiOf = some 50 ∧
    ∀ r, generate_signals ps = some r → "oversold" ∉ signalsOf r := by
  have hgain : gain14 ps = 0 := gain14_zero_of_nonpos ps hnp
  have hrsi : rsiVal ps = 50 := rsiVal_of_rs_zero (rsVal_of_gain_zero hgain)
  rcases generate_signals_some ps h20 hpos with ⟨m, _, hgen⟩
  refine ⟨hgain, ?_, ?_⟩
  · rw [hgen]
    show some (round2 (rsiVal ps)) = some 50
    rw [hrsi]
    decide
  · intro r hr
    rw [hgen] at hr
    cases hr
    show "oversold" ∉ trendSignals ps ++ rsiSignals ps ++ momSignals m
    have h1 : "oversold" ∉ trendSignals ps := by
      rw [trendSignals]
      split
      · decide
      · split
        · decide
        · decide
    have h2 : "oversold" ∉ rsiSignals ps := by
      rw [rsiSignals, hrsi]
      norm_num
    have h3 : "oversold" ∉ momSignals m := by
      rw [momSignals]
      split
      · decide
      · split
        · decide
        · decide
    intro hmem
    rcases List.mem_append.mp hmem with hmem | hmem
    · rcases List.mem_append.mp hmem with hmem | hmem
      · exact h1 hmem
      · exact h2 hmem
    · exact h3 hmem

/-- Witness for C10 at the strictly decreasing series `40, 39, …, 21`. -/
theorem rsi_fifty_on_nonpositive_witness :
    gain14 [40, 39, 38, 37, 36, 35, 34, 33, 32, 31,
            30, 29, 28, 27, 26, 25, 24, 23, 22, 21] = 0 ∧
    (generate_signals [40, 39, 38, 37, 36, 35, 34, 33, 32, 31,
                       30, 29, 28, 27, 26, 25, 24, 23, 22, 21]).bind rsiOf = some 50 ∧
    ∀ r, generate_signals [40, 39, 38, 37, 36, 35, 34, 33, 32, 31,
                           30, 29, 28, 27, 26, 25, 24, 23, 22, 21] = some r →
      "oversold" ∉ signalsOf r :=
  rsi_fifty_on_nonpositive
    [40, 39, 38, 37, 36, 35, 34, 33, 32, 31, 30, 29, 28, 27, 26, 25, 24, 23, 22, 21]
    (by decide) (by decide)
    (by intro j hj; interval_cases j <;> decide)

/-! ## Bridging the rational encodings of the confidence comparisons to
their real-valued float counterparts -/

/-- Population variance is nonnegative. -/
theorem popVar_nonneg (l : List ℚ) : 0 ≤ popVar l := by
  rw [popVar]
  apply div_nonneg
  · apply List.sum_nonneg
    intro x hx
    rcases List.mem_map.mp hx with ⟨y, _, rfl⟩
    positivity
  · exact Nat.cast_nonneg _

/-- The rational test `covLtB` coincides with the real-valued comparison
`coefficient_of_variation < t` performed by the source, for every positive
threshold `t` and nonnegative variance `q`. -/
theorem covLtB_iff (q μ t : ℚ) (ht : 0 < t) :
    covLtB q μ t = true ↔
      (if μ = 0 then (100 : ℝ) else 100 * Real.sqrt (q : ℝ) / (μ : ℝ)) < (t : ℝ) := by
  rcases lt_trichotomy μ 0 with hμ | hμ | hμ
  · rw [covLtB, if_neg hμ.ne, if_neg (not_lt.mpr hμ.le), if_neg hμ.ne]
    have hdiv : (100 : ℝ) * Real.sqrt (q : ℝ) / (μ : ℝ) ≤ 0 :=
      div_nonpos_of_nonneg_of_nonpos (by positivity) (by exact_mod_cast hμ.le)
    have htR : (0 : ℝ) < (t : ℝ) := by exact_mod_cast ht
    exact iff_of_true rfl (lt_of_le_of_lt hdiv htR)
  · subst hμ
    rw [covLtB, if_pos rfl, if_pos rfl, decide_eq_true_iff]
    constructor
    · intro h
      exact_mod_cast h
    · intro h
      exact_mod_cast h
  · rw [covLtB, if_neg hμ.ne', if_pos hμ, if_neg hμ.ne', decide_eq_true_iff]
    have hμR : (0 : ℝ) < (μ : ℝ) := by exact_mod_cast hμ
    have htμ : (0 : ℝ) < (t : ℝ) * (μ : ℝ) := by
      have htR : (0 : ℝ) < (t : ℝ) := by exact_mod_cast ht
      positivity
    rw [div_lt_iff hμR]
    have hsq : (100 : ℝ) * Real.sqrt (q : ℝ) = Real.sqrt (10000 * (q : ℝ)) := by
      rw [Real.sqrt_mul (by norm_num : (0 : ℝ) ≤ 10000)]
      rw [show (10000 : ℝ) = 100 ^ 2 by norm_num, Real.sqrt_sq (by norm_num : (0:ℝ) ≤ 100)]
    rw [hsq, Real.sqrt_lt' htμ]
    rw [show (10000 : ℝ) * (q : ℝ) = ((10000 * q : ℚ) : ℝ) by push_cast; ring]
    rw [show ((t : ℝ) * (μ : ℝ)) ^ 2 = ((t ^ 2 * μ ^ 2 : ℚ) : ℝ) by push_cast; ring]
    exact Iff.symm Rat.cast_lt

/-- The rational test inside `highVolFlag` coincides with the source's
real-valued comparison `historical_volatility > 50`, where the annualized
historical volatility is `returns.std() * sqrt(252) * 100 =
100 * sqrt(252 * var)`. -/
theorem highVolFlag_iff (ps : List ℚ) (h2 : 2 ≤ (returnsOf ps).length) (hv : ℝ)
    (hhv : hv = 100 * Real.sqrt ((252 : ℝ) * (sampleVar (returnsOf ps) : ℝ))) :
    (highVolFlag ps = true ↔ 50 < hv) := by
  rw [highVolFlag, if_pos h2, decide_eq_true_iff, hhv]
  constructor
  · intro h
    have hvR : (1 / 4 : ℝ) < 252 * (sampleVar (returnsOf ps) : ℝ) := by
      have hR : ((2500 : ℚ) : ℝ) < ((2520000 * sampleVar (returnsOf ps) : ℚ) : ℝ) :=
        Rat.cast_lt.mpr h
      push_cast at hR
      nlinarith [hR]
    have hroot := (Real.lt_sqrt (by norm_num : (0 : ℝ) ≤ 1 / 2)).mpr
      (by nlinarith [hvR] :
        ((1 / 2 : ℝ)) ^ 2 < 252 * (sampleVar (returnsOf ps) : ℝ))
    nlinarith [hroot]
  · intro h
    have h1 : (1 / 2 : ℝ) < Real.sqrt (252 * (sampleVar (returnsOf ps) : ℝ)) := by
      nlinarith [h]
    have h2' := (Real.lt_sqrt (by norm_num : (0 : ℝ) ≤ 1 / 2)).mp h1
    have hR : (2500 : ℝ) < 2520000 * (sampleVar (returnsOf ps) : ℝ) := by nlinarith [h2']
    exact_mod_cast hR

/-- Claim C5: the confidence block obeys the §4.4 rules.  With
`cov` the source's coefficient of variation — 100 times the population
standard deviation of the three method predictions over their mean,
defined as 100 when the mean is exactly zero — the base confidence is
`high`/90 for `cov < 5`, `moderate`/70 for `cov < 10`, `low`/50 for
`cov < 20` and `very_low`/30 otherwise; `methods_agreement` uses the same
`cov` with breakpoints 5 and 15; and when the annualized historical
volatility `hv = 100·√(252·var(returns))` exceeds 50 (never for fewer
than two returns, where it is `NaN`) the score is multiplied by 0.7 and
the label steps down, `moderate` to `low` and anything else to
`very_low`. -/
theorem confidence_rules (ps : List ℚ) (a b c : ℚ) (cov : ℝ)
    (hcov : cov = if mean [a, b, c] = 0 then (100 : ℝ)
      else 100 * Real.sqrt ((popVar [a, b, c] : ℚ) : ℝ) / ((mean [a, b, c] : ℚ) : ℝ)) :
    ((cov < 5 → baseConfidence a b c = ("high", 90)) ∧
     (¬ cov < 5 → cov < 10 → baseConfidence a b c = ("moderate", 70)) ∧
     (¬ cov < 10 → cov < 20 → baseConfidence a b c = ("low", 50)) ∧
     (¬ cov < 20 → baseConfidence a b c = ("very_low", 30))) ∧
    ((cov < 5 → methodsAgreement a b c = "high") ∧
     (¬ cov < 5 → cov < 15 → methodsAgreement a b c = "moderate") ∧
     (¬ cov < 15 → methodsAgreement a b c = "low")) ∧
    (∀ hv : ℝ, 2 ≤ (returnsOf ps).length →
      hv = 100 * Real.sqrt ((252 : ℝ) * (sampleVar (returnsOf ps) : ℝ)) →
      (highVolFlag ps = true ↔ 50 < hv)) ∧
    ((returnsOf ps).length < 2 → highVolFlag ps = false) ∧
    (highVolFlag ps = true →
      analyze_confidence ps a b c =
        ⟨if (baseConfidence a b c).1 = "moderate" then "low" else "very_low",
         (qround ((baseConfidence a b c).2 * (7 / 10)) : ℚ),
         methodsAgreement a b c⟩) ∧
    (highVolFlag ps = false →
      analyze_confidence ps a b c =
        ⟨(baseConfidence a b c).1, (qround ((baseConfidence a b c).2) : ℚ),
         methodsAgreement a b c⟩) := by
  have h5 := covLtB_iff (popVar [a, b, c]) (mean [a, b, c]) 5 (by norm_num)
  have h10 := covLtB_iff (popVar [a, b, c]) (mean [a, b, c]) 10 (by norm_num)
  have h15 := covLtB_iff (popVar [a, b, c]) (mean [a, b, c]) 15 (by norm_num)
  have h20 := covLtB_iff (popVar [a, b, c]) (mean [a, b, c]) 20 (by norm_num)
  push_cast at h5 h10 h15 h20
  rw [← hcov] at h5 h10 h15 h20
  refine ⟨⟨?_, ?_, ?_, ?_⟩, ⟨?_, ?_, ?_⟩, ?_, ?_, ?_, ?_⟩
  · intro h
    simp [baseConfidence, h5.mpr h]
  · intro hn h
    have hb5 : covLtB (popVar [a, b, c]) (mean [a, b, c]) 5 = false :=
      Bool.eq_false_iff.mpr (fun hh => hn (h5.mp hh))
    simp [baseConfidence, hb5, h10.mpr h]
  · intro hn h
    have hb10 : covLtB (popVar [a, b, c]) (mean [a, b, c]) 10 = false :=
      Bool.eq_false_iff.mpr (fun hh => hn (h10.mp hh))
    have hb5 : covLtB (popVar [a, b, c]) (mean [a, b, c]) 5 = false :=
      Bool.eq_false_iff.mpr (fun hh => hn (h5.mp hh |>.trans (by norm_num)))
    simp [baseConfidence, hb5, hb10, h20.mpr h]
  · intro hn
    have hb20 : covLtB (popVar [a, b, c]) (mean [a, b, c]) 20 = false :=
      Bool.eq_false_iff.mpr (fun hh => hn (h20.mp hh))
    have hb10 : covLtB (popVar [a, b, c]) (mean [a, b, c]) 10 = false :=
      Bool.eq_false_iff.mpr (fun hh => hn (h10.mp hh |>.trans (by norm_num)))
    have hb5 : covLtB (popVar [a, b, c]) (mean [a, b, c]) 5 = false :=
      Bool.eq_false_iff.mpr (fun hh => hn (h5.mp hh |>.trans (by norm_num)))
    simp [baseConfidence, hb5, hb10, hb20]
  · intro h
    simp [methodsAgreement, h5.mpr h]
  · intro hn h
    have hb5 : covLtB (popVar [a, b, c]) (mean [a, b, c]) 5 = false :=
      Bool.eq_false_iff.mpr (fun hh => hn (h5.mp hh))
    simp [methodsAgreement, hb5, h15.mpr h]
  · intro hn
    have hb15 : covLtB (popVar [a, b, c]) (mean [a, b, c]) 15 = false :=
      Bool.eq_false_iff.mpr (fun hh => hn (h15.mp hh))
    have hb5 : covLtB (popVar [a, b, c]) (mean [a, b, c]) 5 = false :=
      Bool.eq_false_iff.mpr (fun hh => hn (h5.mp hh |>.trans (by norm_num)))
    simp [methodsAgreement, hb5, hb15]
  · intro hv h2 hhv
    exact highVolFlag_iff ps h2 hv hhv
  · intro h
    rw [highVolFlag, if_neg (by omega)]
  · intro h
    simp only [analyze_confidence, h, if_true]
  · intro h
    simp only [analyze_confidence, h, Bool.false_eq_true, if_false]

/-- Witness for C5 at the agreeing prediction triple `(100, 100, 100)` on
the empty series (no returns, hence no volatility downgrade). -/
theorem confidence_rules_witness :
    baseConfidence 100 100 100 = ("high", 90) ∧
    methodsAgreement 100 100 100 = "high" ∧
    highVolFlag [] = false ∧
    analyze_confidence [] 100 100 100 =
      ⟨(baseConfidence 100 100 100).1, (qround ((baseConfidence 100 100 100).2) : ℚ),
       methodsAgreement 100 100 100⟩ := by
  have H := confidence_rules [] 100 100 100 _ rfl
  have hμ : mean [(100 : ℚ), 100, 100] ≠ 0 := by decide
  have hvar : popVar [(100 : ℚ), 100, 100] = 0 := by decide
  have hcov :
      (if mean [(100 : ℚ), 100, 100] = 0 then (100 : ℝ)
        else 100 * Real.sqrt ((popVar [(100 : ℚ), 100, 100] : ℚ) : ℝ)
          / ((mean [(100 : ℚ), 100, 100] : ℚ) : ℝ)) < 5 := by
    rw [if_neg hμ, hvar]
    norm_num
  exact ⟨H.1.1 hcov, H.2.1.1 hcov, H.2.2.2.1 (by decide),
    H.2.2.2.2.2 (by decide)⟩

end Forecast
